/-
Verification development for the autonomous coding-agent core
(`agents/enhanced_coding_agent`): Execution Ledger (`agent_state.py`),
Outcome Evaluator (`AgentState._calculate_quality_score`), Decision Oracle
Adapter (`tool_selector.py`), Control Loop (`v3_autonomous_agent.py`) and
the capability path construction / test-output parsing of
`tools/file_tools.py` and `tools/execution_tool.py`.

Modelling conventions:
* Python `str` is modelled by `String` (operated on through `List Char`
  where structural recursion is needed); Python `int` by `Int`; counters
  that the source only ever increments from zero by `Nat`.
* Wall-clock data (timestamps, execution durations) is omitted: no claim
  mentions it and the source only stores it for display.
* External library calls (`json.loads`, the LLM client's `complete`, the
  decision-prompt rendering) are taken as explicit function parameters, so
  every theorem quantifies over their behaviour.
* The source computes the scaled test component as `int(40 * passed/total)`
  with binary floating point; the model uses exact integer division, which
  agrees with the source on every input appearing in the claims.
-/
import Mathlib

/-- Structured values as produced by a JSON decoder (`json.loads`). -/
inductive JVal where
  | null
  | bool (b : Bool)
  | num (n : Int)
  | str (s : String)
  | arr (xs : List JVal)
  | obj (fields : List (String × JVal))

/-- A Python dict with string keys, as passed around for decisions,
parameters and result envelopes. -/
abbrev JDict := List (String × JVal)

/-- `d.get(k)`: last binding wins, as for keys repeated in a JSON text. -/
def jget (d : JDict) (k : String) : Option JVal :=
  d.foldl (fun acc p => if p.1 = k then some p.2 else acc) none

/-- `d.get(k)` restricted to string values. -/
def jgetStr (d : JDict) (k : String) : Option String :=
  match jget d k with
  | some (JVal.str s) => some s
  | _ => none

/-- `d.get(k, dflt)` for the string-valued parameters the loop reads
(`filename`, `content`, `type`); adapter-produced decisions only ever hold
string values at these keys. -/
def jgetStrD (d : JDict) (k dflt : String) : String :=
  (jgetStr d k).getD dflt

/-- `if k not in d: d[k] = v` — the in-place repair used by
`_validate_decision`. -/
def ensureKey (d : JDict) (k : String) (v : JVal) : JDict :=
  if (jget d k).isSome then d else d ++ [(k, v)]

/-- Structured test-result summary built by
`ExecutionTool._parse_test_results`; its counters start at zero and are
only incremented, hence `Nat`. -/
structure TestResults where
  total_tests : Nat
  passed_tests : Nat
  failed_tests : Nat
  has_test_output : Bool
deriving DecidableEq

/-- Whitespace recognised by `str.strip()` on the inputs at hand. -/
def isSpaceChar (c : Char) : Bool :=
  c = ' ' || c = '\t' || c = '\n' || c = '\r'

/-- `s.strip()` on character lists. -/
def trimChars (cs : List Char) : List Char :=
  ((cs.dropWhile isSpaceChar).reverse.dropWhile isSpaceChar).reverse

/-- Truthiness of `s.strip()`: blank after stripping. -/
def strBlank (s : String) : Bool :=
  (trimChars s.data).isEmpty

/-- Python's `needle in hay` substring test. -/
def hasSubstr (hay needle : List Char) : Bool :=
  match hay with
  | [] => needle.isEmpty
  | _ :: t => needle.isPrefixOf hay || hasSubstr t needle

/-- ASCII lowering, the fragment of `str.lower()` the scanned-for needles
exercise. -/
def lowerChar (c : Char) : Char := c.toLower

/-- `s.lower()` restricted to ASCII case folding. -/
def lowerData (s : String) : List Char := s.data.map lowerChar

/-- `s.split(sep)` for a one-character separator, on character lists. -/
def splitOnChar (sep : Char) : List Char → List (List Char)
  | [] => [[]]
  | c :: rest =>
    if c = sep then [] :: splitOnChar sep rest
    else
      match splitOnChar sep rest with
      | [] => [[c]]
      | h :: t => (c :: h) :: t

/-- One line of `ExecutionTool._parse_test_results`' scan: pass/fail marks
bump the counters and anything test-like sets the detection flag.  The
`total_tests` field is left alone during the scan (the source fills it in
at the end). -/
def tiStep (ti : TestResults) (line : List Char) : TestResults :=
  if line.contains '✅' || hasSubstr (line.map lowerChar) "passed".data then
    { ti with passed_tests := ti.passed_tests + 1, has_test_output := true }
  else if line.contains '❌' || hasSubstr (line.map lowerChar) "failed".data then
    { ti with failed_tests := ti.failed_tests + 1, has_test_output := true }
  else if hasSubstr (line.map lowerChar) "test case".data
      || hasSubstr (line.map lowerChar) "testing".data then
    { ti with has_test_output := true }
  else ti

/-- `ExecutionTool._parse_test_results`: scan stdout line by line, then set
`total_tests = passed_tests + failed_tests`. -/
def parse_test_results (stdout : String) : TestResults :=
  let r := (splitOnChar '\n' stdout.data).foldl tiStep ⟨0, 0, 0, false⟩
  ⟨r.passed_tests + r.failed_tests, r.passed_tests, r.failed_tests, r.has_test_output⟩

/-- `AgentState._calculate_quality_score`: +30 for exit code 0, +10 for
non-blank stdout, +10 flat plus a ≤40 scaled component for detected tests,
+10 for blank stderr, clamped by `min(100, score)`. -/
def calculate_quality_score (exit_code : Int) (stdout stderr : String)
    (tr : TestResults) : Int :=
  min 100 ((if exit_code = 0 then 30 else 0)
    + (if strBlank stdout then 0 else 10)
    + (if tr.has_test_output then
         10 + (if 0 < tr.total_tests then
                 (40 * (tr.passed_tests : Int)) / (tr.total_tests : Int)
               else 0)
       else 0)
    + (if strBlank stderr then 10 else 0))

/-- The uniform flattening of a capability's result envelope
(`BaseTool.format_result`): the `success` flag, the optional `error`
message, and the payload fields that `_process_tool_result` reads. -/
structure ResultEnv where
  success : Bool
  error : Option String
  thinking_process : String
  solution_plan : String
  generated_code : String
  content : String
  file_path : String
  stdout : String
  stderr : String
  exit_code : Int
  test_results : TestResults

/-- The empty envelope `{}` stored by `add_tool_call` before the
invocation completes (reads of absent keys yield the source's defaults). -/
def emptyEnv : ResultEnv :=
  ⟨false, none, "", "", "", "", "", "", "", -1, ⟨0, 0, 0, false⟩⟩

/-- `{"success": False, "error": str(e)}` built by
`_execute_tool_decision` when a capability raises. -/
def errEnv (e : String) : ResultEnv :=
  { emptyEnv with error := some e }

/-- `ToolCall` record (timestamp and duration omitted). -/
structure ToolCall where
  tool_name : String
  parameters : JDict
  result : ResultEnv
  reasoning : String
  success : Bool

/-- `FileInfo` record (creation timestamp omitted). -/
structure FileInfo where
  filename : String
  path : String
  content_type : String
  purpose : String
  size : Nat

/-- `ExecutionResult` record (duration omitted). -/
structure ExecutionResult where
  filename : String
  exit_code : Int
  stdout : String
  stderr : String
  test_results : TestResults
  quality_score : Int

/-- The Execution Ledger, `AgentState` (start time, failed-attempt and
lesson lists omitted: nothing in the source ever writes the latter two). -/
structure AgentState where
  problem_statement : String
  max_tool_calls : Nat
  tool_calls : List ToolCall
  remaining_calls : Int
  files_created : List FileInfo
  execution_results : List ExecutionResult
  best_solution : Option String
  best_quality_score : Int
  thinking_history : List String
  current_approach : String
  identified_issues : List String
  satisfaction_level : Int
  confidence_level : Int
  is_satisfied : Bool
  stop_reason : String

/-- `AgentState.__init__`. -/
def AgentState.init (problem : String) (maxCalls : Nat) : AgentState :=
  ⟨problem, maxCalls, [], (maxCalls : Int), [], [], none, 0, [], "", [], 0, 0, false, ""⟩

/-- `AgentState.add_thinking` (the wall-clock prefix of the stored line is
omitted). -/
def AgentState.add_thinking (st : AgentState) (thought : String) : AgentState :=
  { st with thinking_history := st.thinking_history ++ [thought] }

/-- `AgentState.add_tool_call`: append the pending record and decrement
the budget. -/
def AgentState.add_tool_call (st : AgentState) (tool : String) (params : JDict)
    (reasoning : String) : AgentState :=
  { st with tool_calls := st.tool_calls ++ [⟨tool, params, emptyEnv, reasoning, false⟩],
            remaining_calls := st.remaining_calls - 1 }

/-- In-place update of the last list entry, as
`update_last_tool_call` mutates `self.tool_calls[-1]`. -/
def updateLastTC : List ToolCall → ResultEnv → List ToolCall
  | [], _ => []
  | [c], r => [⟨c.tool_name, c.parameters, r, c.reasoning, r.success⟩]
  | c :: c' :: rest, r => c :: updateLastTC (c' :: rest) r

/-- `AgentState.update_last_tool_call` (no-op on an empty history). -/
def AgentState.update_last_tool_call (st : AgentState) (r : ResultEnv) : AgentState :=
  { st with tool_calls := updateLastTC st.tool_calls r }

/-- `AgentState.add_file` (timestamp omitted). -/
def AgentState.add_file (st : AgentState) (filename path content_type purpose : String)
    (size : Nat) : AgentState :=
  { st with files_created := st.files_created ++ [⟨filename, path, content_type, purpose, size⟩] }

/-- `AgentState.add_execution_result`: score the outcome, append it, and
replace the best-known solution only on a strictly greater score. -/
def AgentState.add_execution_result (st : AgentState) (filename : String)
    (exit_code : Int) (stdout stderr : String) (test_results : TestResults) : AgentState :=
  let q := calculate_quality_score exit_code stdout stderr test_results
  let st' := { st with execution_results :=
      st.execution_results ++ [⟨filename, exit_code, stdout, stderr, test_results, q⟩] }
  if st.best_quality_score < q then
    { st' with best_quality_score := q, best_solution := some filename }
  else st'

/-- `AgentState.add_issue`: append if not already present. -/
def AgentState.add_issue (st : AgentState) (issue : String) : AgentState :=
  if issue ∈ st.identified_issues then st
  else { st with identified_issues := st.identified_issues ++ [issue] }

/-- `AgentState.update_satisfaction` with an empty reason (the loop's only
call): clamp into [0,100]. -/
def AgentState.update_satisfaction (st : AgentState) (level : Int) : AgentState :=
  { st with satisfaction_level := max 0 (min 100 level) }

/-- `AgentState.update_confidence` with an empty reason: clamp into
[0,100]. -/
def AgentState.update_confidence (st : AgentState) (level : Int) : AgentState :=
  { st with confidence_level := max 0 (min 100 level) }

/-- `AgentState.mark_satisfied`. -/
def AgentState.mark_satisfied (st : AgentState) (reason : String) : AgentState :=
  { st with is_satisfied := true, stop_reason := reason,
            thinking_history := st.thinking_history ++ ["SATISFIED: " ++ reason] }

/-- The registered capability set, in the insertion order of
`FullyAutonomousCodingAgent.__init__`'s `self.tools`. -/
def tools5 : List String :=
  ["think", "generate_code", "read_file", "write_file", "execute_code"]

/-- `AutonomousToolSelector._get_fallback_decision`, the deterministic
fallback decision tree. -/
def getFallbackDecision (st : AgentState) : JDict :=
  if st.files_created.isEmpty then
    [("action", JVal.str "use_tool"), ("tool", JVal.str "think"),
     ("parameters", JVal.obj [("focus", JVal.str "problem analysis"),
                              ("context", JVal.str "Starting problem analysis")]),
     ("reasoning", JVal.str "Fallback: Starting with problem analysis")]
  else if st.execution_results.isEmpty
      ∧ ".py".data.isSuffixOf ((st.files_created.getLastD ⟨"", "", "", "", 0⟩).filename).data then
    [("action", JVal.str "use_tool"), ("tool", JVal.str "execute_code"),
     ("parameters", JVal.obj
        [("filename", JVal.str (st.files_created.getLastD ⟨"", "", "", "", 0⟩).filename),
         ("goal", JVal.str "test the solution")]),
     ("reasoning", JVal.str "Fallback: Testing the generated solution")]
  else if st.best_quality_score < 70 then
    [("action", JVal.str "use_tool"), ("tool", JVal.str "think"),
     ("parameters", JVal.obj
        [("focus", JVal.str "solution improvement"),
         ("context", JVal.str ("Current quality is " ++ toString st.best_quality_score ++ "/100"))]),
     ("reasoning", JVal.str "Fallback: Analyzing ways to improve solution quality")]
  else if st.remaining_calls ≤ 1 ∨ 80 ≤ st.best_quality_score then
    [("action", JVal.str "stop"),
     ("reasoning", JVal.str ("Fallback: Stopping due to "
        ++ (if st.remaining_calls ≤ 1 then "call limit" else "good quality achieved")))]
  else
    [("action", JVal.str "use_tool"), ("tool", JVal.str "generate_code"),
     ("parameters", JVal.obj [("approach", JVal.str "improved solution"),
                              ("based_on", JVal.str "previous attempts")]),
     ("reasoning", JVal.str "Fallback: Generating improved solution")]

/-- The stop-synonyms `_interpret_text_response` scans for, in source
order. -/
def stopIndicators : List String :=
  ["stop", "satisfied", "complete", "finished", "done"]

/-- `AutonomousToolSelector._interpret_text_response`: stop-synonym scan,
then registered-capability-name scan, then the deterministic fallback. -/
def interpretTextResponse (tools : List String) (st : AgentState)
    (response : String) : JDict :=
  if stopIndicators.any (fun ind => hasSubstr (lowerData response) ind.data) then
    [("action", JVal.str "stop"),
     ("reasoning", JVal.str ("Interpreted from response: "
        ++ String.mk (response.data.take 100) ++ "..."))]
  else
    match tools.find? (fun t => hasSubstr (lowerData response) t.data) with
    | some t =>
      [("action", JVal.str "use_tool"), ("tool", JVal.str t),
       ("parameters", JVal.obj []),
       ("reasoning", JVal.str ("Interpreted " ++ t ++ " from response: "
          ++ String.mk (response.data.take 100) ++ "..."))]
    | none => getFallbackDecision st

/-- Outcome of `_validate_decision`: `raised` models the `TypeError` the
source hits when `decision["tool"]` is an unhashable value probed with
`in self.available_tools`; `invalid` is its `False`. -/
inductive ValidateOut where
  | raised
  | invalid
  | valid (d : JDict)

/-- `AutonomousToolSelector._validate_decision` including its in-place
repair of missing `parameters`/`reasoning` fields. -/
def validateDecision (tools : List String) (v : JVal) : ValidateOut :=
  match v with
  | JVal.obj d =>
    match jget d "action" with
    | some (JVal.str "use_tool") =>
      match jget d "tool" with
      | some (JVal.str t) =>
        if t ∈ tools then
          ValidateOut.valid (ensureKey (ensureKey d "parameters" (JVal.obj []))
            "reasoning" (JVal.str "No reasoning provided"))
        else ValidateOut.invalid
      | some (JVal.arr _) => ValidateOut.raised
      | some (JVal.obj _) => ValidateOut.raised
      | _ => ValidateOut.invalid
    | some (JVal.str "stop") =>
      ValidateOut.valid (ensureKey d "reasoning" (JVal.str "Agent decided to stop"))
    | _ => ValidateOut.invalid
  | _ => ValidateOut.invalid

/-- `response_text.find('{')`, `response_text.rfind('}') + 1` and the
slice between them: the brace-delimited span `_parse_llm_decision` hands
to `json.loads`, when `json_start >= 0 and json_end > json_start`. -/
def braceSpan (cs : List Char) : Option (List Char) :=
  match cs.findIdx? (fun c => c = '{'), cs.reverse.findIdx? (fun c => c = '}') with
  | some i, some j' =>
    let j := cs.length - 1 - j'
    if i < j + 1 then some ((cs.drop i).take (j + 1 - i)) else none
  | _, _ => none

/-- `AutonomousToolSelector._parse_llm_decision`.  `parse` stands for
`json.loads` (`Except.error` = raised decode error); an error raised while
parsing or validating lands in the `except` clause, which answers with the
deterministic fallback, while a missing span or failed validation falls
through to textual interpretation. -/
def parseLlmDecision (parse : String → Except String JVal) (tools : List String)
    (st : AgentState) (llmResponse : String) : JDict :=
  match braceSpan (trimChars llmResponse.data) with
  | some span =>
    match parse (String.mk span) with
    | Except.error _ => getFallbackDecision st
    | Except.ok v =>
      match validateDecision tools v with
      | ValidateOut.raised => getFallbackDecision st
      | ValidateOut.invalid =>
        interpretTextResponse tools st (String.mk (trimChars llmResponse.data))
      | ValidateOut.valid d => d
  | none => interpretTextResponse tools st (String.mk (trimChars llmResponse.data))

/-- `AutonomousToolSelector.decide_next_action`.  `promptOf` stands for
the prompt rendering (`_get_system_prompt` plus `_build_decision_prompt`)
and `complete` for `llm_client.complete`; the source wraps neither in an
exception handler, so an oracle fault is returned as `Except.error`. -/
def decide_next_action (tools : List String)
    (complete : String → Except String String)
    (parse : String → Except String JVal)
    (promptOf : AgentState → String) (st : AgentState) : Except String JDict :=
  match complete (promptOf st) with
  | Except.error e => Except.error e
  | Except.ok resp => Except.ok (parseLlmDecision parse tools st resp)

/-- Shape of every decision the adapter can return (claim C3's property):
a `stop` with a reasoning field, or a `use_tool` naming a registered
capability with parameters and reasoning fields present. -/
def validDecision (tools : List String) (d : JDict) : Prop :=
  (jgetStr d "action" = some "stop" ∧ (jget d "reasoning").isSome = true)
  ∨ (jgetStr d "action" = some "use_tool"
     ∧ (∃ t, jgetStr d "tool" = some t ∧ t ∈ tools)
     ∧ (jget d "parameters").isSome = true ∧ (jget d "reasoning").isSome = true)

/-- A validated decision as the Control Loop consumes it
(`decision["action"]`, `decision["tool"]`, `decision["parameters"]`,
`decision["reasoning"]`); the adapter only ever produces these two shapes
(theorem on `parseLlmDecision` below). -/
inductive Decision where
  | useTool (tool : String) (params : JDict) (reasoning : String)
  | stop (reasoning : String)

/-- Result of dispatching a capability: a returned envelope, or an
exception crossing the capability boundary (caught by
`_execute_tool_decision`). -/
inductive ToolExec where
  | ok (r : ResultEnv)
  | raised (e : String)

/-- One cycle's external inputs: either the oracle call raised inside
`decide_next_action`, or it produced a decision together with the chosen
capability's behaviour. -/
inductive CycleInput where
  | oracleFail (e : String)
  | act (d : Decision) (tex : ToolExec)

/-- The `think` branch tail of `_process_tool_result`: adopt the solution
plan as the current approach, truncated past 100 characters. -/
def processThink (st : AgentState) (r : ResultEnv) : AgentState :=
  if r.solution_plan ≠ "" then
    { st with current_approach :=
        if 100 < r.solution_plan.data.length
        then String.mk (r.solution_plan.data.take 100) ++ "..."
        else r.solution_plan }
  else st

/-- `FullyAutonomousCodingAgent._process_tool_result` (successful results
only; the caller guards on `success`). -/
def processToolResult (st : AgentState) (tool : String) (r : ResultEnv)
    (params : JDict) : AgentState :=
  if tool = "think" then
    processThink (st.add_thinking ("Thinking: "
      ++ String.mk (r.thinking_process.data.take 200) ++ "...")) r
  else if tool = "generate_code" then
    st.add_thinking ("Generated " ++ toString r.generated_code.data.length
      ++ " characters of code")
  else if tool = "write_file" then
    st.add_file (jgetStrD params "filename" "unknown") r.file_path
      (jgetStrD params "type" "unknown") ("Tool call: " ++ tool)
      (jgetStrD params "content" "").data.length
  else if tool = "read_file" then
    st.add_thinking ("Read " ++ jgetStrD params "filename" "unknown" ++ ": "
      ++ toString r.content.data.length ++ " characters")
  else if tool = "execute_code" then
    st.add_execution_result (jgetStrD params "filename" "unknown") r.exit_code
      r.stdout r.stderr r.test_results
  else st

/-- `FullyAutonomousCodingAgent._execute_tool_decision` after the dispatch
returned `r`: store the result, fold it in on success, and record an issue
on failure. -/
def afterToolExec (st : AgentState) (tool : String) (r : ResultEnv)
    (params : JDict) : AgentState :=
  if r.success then processToolResult (st.update_last_tool_call r) tool r params
  else (st.update_last_tool_call r).add_issue
    (tool ++ " failed: " ++ r.error.getD "Unknown error")

/-- Satisfaction recomputed by `_update_agent_assessment`. -/
def satisfactionCalc (st : AgentState) : Int :=
  (if st.files_created.isEmpty then 0 else 20)
  + (if st.execution_results.isEmpty then 0 else 20)
  + (if 0 < st.best_quality_score then min 50 (st.best_quality_score / 2) else 0)

/-- Confidence recomputed by `_update_agent_assessment`. -/
def confidenceCalc (st : AgentState) : Int :=
  (if st.tool_calls.isEmpty then 0 else 20)
  + (if 70 ≤ st.best_quality_score then 50 else 0)
  + (if st.identified_issues.isEmpty then 30 else 0)

/-- The auto-termination safety valve at the end of
`_update_agent_assessment`. -/
def autoSatisfy (st : AgentState) : AgentState :=
  if 90 ≤ st.best_quality_score ∧ st.is_satisfied = false then
    st.mark_satisfied ("High quality solution achieved: "
      ++ toString st.best_quality_score ++ "/100")
  else st

/-- `FullyAutonomousCodingAgent._update_agent_assessment`. -/
def updateAgentAssessment (st : AgentState) : AgentState :=
  autoSatisfy ((st.update_satisfaction (satisfactionCalc st)).update_confidence
    (confidenceCalc st))

/-- One `use_tool` cycle of `solve_problem`: record the invocation
(`_make_autonomous_decision`), dispatch (`_execute_tool_decision`,
catching a raised capability fault), reassess. -/
def cycleDispatch (st : AgentState) (tool : String) (params : JDict)
    (reasoning : String) (tex : ToolExec) : AgentState :=
  updateAgentAssessment (match tex with
    | ToolExec.ok r => afterToolExec (st.add_tool_call tool params reasoning) tool r params
    | ToolExec.raised e =>
      ((st.add_tool_call tool params reasoning).update_last_tool_call (errEnv e)).add_issue
        (tool ++ " execution error: " ++ e))

/-- The `while` loop of `FullyAutonomousCodingAgent.solve_problem` driven
by a list of per-cycle external inputs.  The second component is `some e`
when an exception escaped the cycle body (the oracle call raising), which
the source's session-level handler turns into an error report; `none` is a
normal exit (guard false, stop decision, or inputs exhausted at an
observation point). -/
def runLoop : List CycleInput → AgentState → AgentState × Option String
  | [], st => (st, none)
  | i :: rest, st =>
    if 0 < st.remaining_calls ∧ st.is_satisfied = false then
      match i with
      | CycleInput.oracleFail e => (st, some e)
      | CycleInput.act (Decision.stop reason) _ => (st.mark_satisfied reason, none)
      | CycleInput.act (Decision.useTool tool params reasoning) tex =>
        runLoop rest (cycleDispatch st tool params reasoning tex)
    else (st, none)

/-- `s.startswith('/')`. -/
def headSlash (s : String) : Bool := s.data.head? = some '/'

/-- `s.endswith('/')`. -/
def lastSlash (s : String) : Bool := s.data.getLast? = some '/'

/-- Two-argument `posixpath.join`: an absolute second component resets the
path, otherwise a separator is inserted unless one is already there. -/
def posixJoin2 (a b : String) : String :=
  if headSlash b then b
  else if a = "" then b
  else if lastSlash a then a ++ b
  else a ++ "/" ++ b

/-- Path components with empty and `.` components dropped, as POSIX
resolution ignores both. -/
def pathParts (cs : List Char) : List (List Char) :=
  (splitOnChar '/' cs).filter (fun c => !(c.isEmpty || c = ['.']))

/-- Resolve `..` components against a growing stack (a leading `..` of a
relative path survives). -/
def normParts : List (List Char) → List (List Char) → List (List Char)
  | stack, [] => stack
  | stack, c :: rest =>
    if c = ['.', '.'] then
      if stack = [] ∨ stack.getLast? = some ['.', '.'] then normParts (stack ++ [c]) rest
      else normParts stack.dropLast rest
    else normParts (stack ++ [c]) rest

/-- The resolved target of `p` stays inside the directory tree rooted at
`root`: after resolving `.`/`..`, the root's components are a prefix of
the target's. -/
def withinRoot (root p : String) : Bool :=
  (normParts [] (pathParts root.data)).isPrefixOf (normParts [] (pathParts p.data))

/-- `ReadFileTool.execute`'s target path: `os.path.join(workspace_path,
directory, filename)` when a directory is supplied (non-empty), else
`os.path.join(workspace_path, filename)`. -/
def readFilePath (ws directory filename : String) : String :=
  if directory ≠ "" then posixJoin2 (posixJoin2 ws directory) filename
  else posixJoin2 ws filename

/-- `WriteFileTool.execute`'s target path (same construction). -/
def writeFilePath (ws directory filename : String) : String :=
  if directory ≠ "" then posixJoin2 (posixJoin2 ws directory) filename
  else posixJoin2 ws filename

/-- `ExecutionTool.execute`'s script path (same construction; the caller
defaults `directory` to `"solutions"`). -/
def execScriptPath (ws directory filename : String) : String :=
  if directory ≠ "" then posixJoin2 (posixJoin2 ws directory) filename
  else posixJoin2 ws filename

/-- A parameter that cannot redirect the join: relative (no leading slash)
and without `..` components. -/
def isRelNoDotDot (s : String) : Bool :=
  !headSlash s && (pathParts s.data).all (fun c => c ≠ ['.', '.'])

/-- A workspace root without `..` components. -/
def noDotDot (s : String) : Bool :=
  (pathParts s.data).all (fun c => c ≠ ['.', '.'])

/-- The arguments of one `add_execution_result` call, bundled so a whole
session's sequence of recorded outcomes can be folded into the Ledger. -/
structure ExecCall where
  filename : String
  exit_code : Int
  stdout : String
  stderr : String
  test_results : TestResults

/-- Record one execution outcome. -/
def applyExec (st : AgentState) (e : ExecCall) : AgentState :=
  st.add_execution_result e.filename e.exit_code e.stdout e.stderr e.test_results

/-- Record a sequence of execution outcomes in order. -/
def applyExecs (st : AgentState) (es : List ExecCall) : AgentState :=
  es.foldl applyExec st

/-- A `json.loads` stand-in that raises on every input, as the real one
does on spans that are not well-formed JSON (for instance `"{stop}"`,
whose unquoted token is rejected). -/
def parse0 : String → Except String JVal :=
  fun _ => Except.error "Expecting property name enclosed in double quotes"

/-- A prompt rendering stand-in (the adapter's behaviour under test does
not depend on the prompt text). -/
def prompt0 : AgentState → String := fun _ => ""

/-- A fresh Ledger: no artifacts, no executions. -/
def st0 : AgentState := AgentState.init "Write a function" 5

/-- A Ledger holding one recorded artifact that is not a Python file, and
no executions. -/
def st1 : AgentState :=
  st0.add_file "notes.txt" "workspace/notes.txt" "analysis" "Tool call: write_file" 120

/-- A Ledger holding one recorded Python artifact and no executions. -/
def stPy : AgentState :=
  st0.add_file "solution.py" "workspace/solutions/solution.py" "solution"
    "Tool call: write_file" 240

/-- A successful result envelope with empty payload. -/
def okEnv : ResultEnv := { emptyEnv with success := true }

theorem tiStep_inv (ti : TestResults) (line : List Char)
    (h : 0 < ti.passed_tests + ti.failed_tests → ti.has_test_output = true) :
    0 < (tiStep ti line).passed_tests + (tiStep ti line).failed_tests →
      (tiStep ti line).has_test_output = true := by
  unfold tiStep
  split_ifs <;> simp_all

theorem tiFold_inv (lines : List (List Char)) : ∀ ti : TestResults,
    (0 < ti.passed_tests + ti.failed_tests → ti.has_test_output = true) →
    0 < (lines.foldl tiStep ti).passed_tests + (lines.foldl tiStep ti).failed_tests →
    (lines.foldl tiStep ti).has_test_output = true := by
  induction lines with
  | nil => intro ti h; simpa using h
  | cons l ls ih => intro ti h; simpa using ih (tiStep ti l) (tiStep_inv ti l h)

/-- Claim C10: for every captured stdout, the run capability's test-result
parser returns (non-negative, by type) passed and failed counts whose sum
is `total_tests`, and sets `has_test_output` whenever `total_tests > 0`. -/
theorem test_result_parser_consistent (stdout : String) :
    (parse_test_results stdout).total_tests
      = (parse_test_results stdout).passed_tests + (parse_test_results stdout).failed_tests
    ∧ (0 < (parse_test_results stdout).total_tests →
        (parse_test_results stdout).has_test_output = true) := by
  refine ⟨rfl, fun h => ?_⟩
  have := tiFold_inv (splitOnChar '\n' stdout.data) ⟨0, 0, 0, false⟩ (by simp)
  simp only [parse_test_results] at h ⊢
  exact this h

/-- Claim C10 witness at a concrete stdout. -/
theorem test_result_parser_consistent_witness :
    (parse_test_results "test passed").has_test_output = true :=
  (test_result_parser_consistent "test passed").2 (by decide)

/-- Claim C2: the quality score lies in [0,100] for every combination of
inputs, and with `tests detected` but `total_tests = 0` only the flat +10
is awarded, no scaled component. -/
theorem quality_score_in_range (ec : Int) (so se : String) (tr : TestResults) :
    0 ≤ calculate_quality_score ec so se tr
    ∧ calculate_quality_score ec so se tr ≤ 100
    ∧ (tr.total_tests = 0 → tr.has_test_output = true →
        calculate_quality_score ec so se tr
          = min 100 ((if ec = 0 then 30 else 0) + (if strBlank so then 0 else 10)
              + 10 + (if strBlank se then 10 else 0))) := by
  have hdiv : (0 : Int) ≤ (40 * (tr.passed_tests : Int)) / (tr.total_tests : Int) :=
    Int.ediv_nonneg (by positivity) (by positivity)
  refine ⟨?_, min_le_left _ _, fun h0 hdet => ?_⟩
  · unfold calculate_quality_score
    refine le_min (by norm_num) ?_
    split_ifs <;> omega
  · simp [calculate_quality_score, h0, hdet]

/-- Claim C2 witness at the pathological input. -/
theorem quality_score_in_range_witness :
    calculate_quality_score 0 "out" "" ⟨0, 3, 0, true⟩ = 60 := by
  have h := (quality_score_in_range 0 "out" "" ⟨0, 3, 0, true⟩).2.2 rfl rfl
  rw [h]; decide

/-- Claim C9 (Scenario B): exit 0, non-empty stdout, empty stderr, tests
detected with 8 of 10 passing scores exactly 92. -/
theorem scenario_b_score :
    calculate_quality_score 0 "output" "" ⟨10, 8, 2, true⟩ = 92 := by decide

/-- Claim C4: across any sequence of recorded outcomes the best-known
score never decreases, and one recorded outcome replaces the best-known
solution reference exactly when its score is strictly greater. -/
theorem best_solution_monotone (st : AgentState) (es : List ExecCall) (e : ExecCall) :
    st.best_quality_score ≤ (applyExecs st es).best_quality_score
    ∧ (if st.best_quality_score
          < calculate_quality_score e.exit_code e.stdout e.stderr e.test_results then
        (applyExec st e).best_quality_score
            = calculate_quality_score e.exit_code e.stdout e.stderr e.test_results
          ∧ (applyExec st e).best_solution = some e.filename
      else (applyExec st e).best_quality_score = st.best_quality_score
          ∧ (applyExec st e).best_solution = st.best_solution) := by
  constructor
  · induction es generalizing st with
    | nil => exact le_refl _
    | cons x xs ih =>
      have hstep : st.best_quality_score ≤ (applyExec st x).best_quality_score := by
        by_cases hq : st.best_quality_score
            < calculate_quality_score x.exit_code x.stdout x.stderr x.test_results
        · simp [applyExec, AgentState.add_execution_result, hq]
          exact le_of_lt hq
        · simp [applyExec, AgentState.add_execution_result, hq]
      calc st.best_quality_score ≤ (applyExec st x).best_quality_score := hstep
        _ ≤ (applyExecs (applyExec st x) xs).best_quality_score := ih (applyExec st x)
  · by_cases hq : st.best_quality_score
        < calculate_quality_score e.exit_code e.stdout e.stderr e.test_results
    · simp [applyExec, AgentState.add_execution_result, hq]
    · simp [applyExec, AgentState.add_execution_result, hq]

theorem jget_append_single (d : JDict) (k' k : String) (v : JVal) :
    jget (d ++ [(k', v)]) k = if k' = k then some v else jget d k := by
  unfold jget
  rw [List.foldl_append]
  simp

theorem jget_ensureKey_self (d : JDict) (k : String) (v : JVal) :
    (jget (ensureKey d k v) k).isSome = true := by
  unfold ensureKey
  split
  · assumption
  · simp [jget_append_single]

theorem jget_ensureKey_other (d : JDict) (k' k : String) (v : JVal) (h : k' ≠ k) :
    jget (ensureKey d k' v) k = jget d k := by
  unfold ensureKey
  split
  · rfl
  · simp [jget_append_single, h]

theorem jgetStr_ensureKey_other (d : JDict) (k' k : String) (v : JVal) (h : k' ≠ k) :
    jgetStr (ensureKey d k' v) k = jgetStr d k := by
  unfold jgetStr
  rw [jget_ensureKey_other d k' k v h]

theorem fallback_decision_valid (st : AgentState) :
    validDecision tools5 (getFallbackDecision st) := by
  unfold getFallbackDecision validDecision
  split_ifs
  · exact Or.inr ⟨rfl, ⟨"think", rfl, by decide⟩, rfl, rfl⟩
  · exact Or.inr ⟨rfl, ⟨"execute_code", rfl, by decide⟩, rfl, rfl⟩
  · exact Or.inr ⟨rfl, ⟨"think", rfl, by decide⟩, rfl, rfl⟩
  · exact Or.inl ⟨rfl, rfl⟩
  · exact Or.inl ⟨rfl, rfl⟩
  · exact Or.inr ⟨rfl, ⟨"generate_code", rfl, by decide⟩, rfl, rfl⟩

theorem interpret_decision_valid (st : AgentState) (response : String) :
    validDecision tools5 (interpretTextResponse tools5 st response) := by
  unfold interpretTextResponse
  split_ifs
  · exact Or.inl ⟨rfl, rfl⟩
  · cases hf : tools5.find? (fun t => hasSubstr (lowerData response) t.data) with
    | none => simp only [hf]; exact fallback_decision_valid st
    | some t =>
      simp only [hf]
      exact Or.inr ⟨rfl, ⟨t, rfl, List.mem_of_find?_eq_some hf⟩, rfl, rfl⟩

theorem validate_decision_valid (tools : List String) (v : JVal) (d : JDict)
    (h : validateDecision tools v = ValidateOut.valid d) : validDecision tools d := by
  unfold validateDecision at h
  split at h
  case _ fields =>
    split at h
    case _ ha =>
      -- action = "use_tool"
      split at h
      case _ t ht =>
        split at h
        case isTrue hmem =>
          cases h
          refine Or.inr ⟨?_, ⟨t, ?_, hmem⟩, ?_, ?_⟩
          · rw [jgetStr_ensureKey_other _ _ _ _ (by decide),
              jgetStr_ensureKey_other _ _ _ _ (by decide)]
            simp [jgetStr, ha]
          · rw [jgetStr_ensureKey_other _ _ _ _ (by decide),
              jgetStr_ensureKey_other _ _ _ _ (by decide)]
            simp [jgetStr, ht]
          · rw [jget_ensureKey_other _ _ _ _ (by decide)]
            exact jget_ensureKey_self _ _ _
          · exact jget_ensureKey_self _ _ _
        case isFalse => exact absurd h (by simp)
      case _ => exact absurd h (by simp)
      case _ => exact absurd h (by simp)
      case _ => exact absurd h (by simp)
    case _ ha =>
      -- action = "stop"
      cases h
      refine Or.inl ⟨?_, ?_⟩
      · rw [jgetStr_ensureKey_other _ _ _ _ (by decide)]
        simp [jgetStr, ha]
      · exact jget_ensureKey_self _ _ _
    case _ => exact absurd h (by simp)
  case _ => exact absurd h (by simp)

/-- Claim C3: whatever the oracle's response text and however `json.loads`
behaves on the extracted span, `_parse_llm_decision` returns (never
raises) a decision whose action is `use_tool` or `stop`, whose tool, for
`use_tool`, is a registered capability, and which carries parameters and
reasoning fields. -/
theorem adapter_decision_always_valid (parse : String → Except String JVal)
    (st : AgentState) (response : String) :
    validDecision tools5 (parseLlmDecision parse tools5 st response) := by
  unfold parseLlmDecision
  cases hb : braceSpan (trimChars response.data) with
  | none => exact interpret_decision_valid st _
  | some span =>
    cases hp : parse (String.mk span) with
    | error e =>
      simp only [hp]
      exact fallback_decision_valid st
    | ok v =>
      cases hv : validateDecision tools5 v with
      | raised =>
        simp only [hp, hv]
        exact fallback_decision_valid st
      | invalid =>
        simp only [hp, hv]
        exact interpret_decision_valid st _
      | valid d =>
        simp only [hp, hv]
        exact validate_decision_valid tools5 v d hv

/-- Claim C7 counterexample: on the response `"{stop}"` the extracted span
fails to parse (an unquoted token raises in `json.loads`), and the adapter
does NOT fall through to textual interpretation — the raised decode error
lands in the `except` clause, which answers with the deterministic
fallback (`think`), whereas the textual step would have read the
stop-synonym. -/
theorem parse_failure_skips_interpretation :
    parseLlmDecision parse0 tools5 st0 "\x7bstop\x7d"
      ≠ interpretTextResponse tools5 st0
          (String.mk (trimChars "\x7bstop\x7d".data)) := by
  intro h
  exact absurd (congrArg (fun d => jgetStr d "action") h) (by decide)

/-- Claim C7 amended: a missing brace span, or a span that parses but
fails validation, falls through to textual interpretation; a span whose
parse RAISES resorts directly to the deterministic fallback, skipping the
textual step. -/
theorem parse_fallthrough_tiers (parse : String → Except String JVal)
    (st : AgentState) (response : String) :
    (braceSpan (trimChars response.data) = none →
      parseLlmDecision parse tools5 st response
        = interpretTextResponse tools5 st (String.mk (trimChars response.data)))
    ∧ (∀ span e, braceSpan (trimChars response.data) = some span →
        parse (String.mk span) = Except.error e →
        parseLlmDecision parse tools5 st response = getFallbackDecision st)
    ∧ (∀ span v, braceSpan (trimChars response.data) = some span →
        parse (String.mk span) = Except.ok v →
        validateDecision tools5 v = ValidateOut.invalid →
        parseLlmDecision parse tools5 st response
          = interpretTextResponse tools5 st (String.mk (trimChars response.data))) := by
  refine ⟨fun hb => ?_, fun span e hb hp => ?_, fun span v hb hp hv => ?_⟩
  · unfold parseLlmDecision
    rw [hb]
  · unfold parseLlmDecision
    rw [hb]
    simp only [hp]
  · unfold parseLlmDecision
    rw [hb]
    simp only [hp, hv]

/-- Claim C7 amended, witness: tier-1 (no braces) and the raising-parse
path at concrete inputs. -/
theorem parse_fallthrough_tiers_witness :
    parseLlmDecision parse0 tools5 st0 "hello"
        = interpretTextResponse tools5 st0 (String.mk (trimChars "hello".data))
    ∧ parseLlmDecision parse0 tools5 st0 "\x7bstop\x7d" = getFallbackDecision st0 :=
  ⟨(parse_fallthrough_tiers parse0 st0 "hello").1 (by decide),
   (parse_fallthrough_tiers parse0 st0 "\x7bstop\x7d").2.1 "\x7bstop\x7d".data
     "Expecting property name enclosed in double quotes" (by decide) rfl⟩

/-- Claim C8 counterexample: a Ledger holding one artifact (`notes.txt`)
and no executions.  The fallback tree does not invoke the run capability —
the run branch is additionally guarded by the artifact name ending in
`.py`, so it falls through to the quality branch and proposes `think`. -/
theorem fallback_no_run_on_non_py :
    jgetStr (getFallbackDecision st1) "tool" ≠ some "execute_code" := by decide

/-- Claim C8 amended: with at least one artifact, no executions, and the
most recent artifact named `*.py`, the fallback tree invokes the run
capability (`execute_code`) on that artifact. -/
theorem fallback_runs_latest_py (st : AgentState)
    (h1 : st.files_created.isEmpty = false)
    (h2 : st.execution_results.isEmpty = true)
    (h3 : ".py".data.isSuffixOf
        (st.files_created.getLastD ⟨"", "", "", "", 0⟩).filename.data = true) :
    getFallbackDecision st
      = [("action", JVal.str "use_tool"), ("tool", JVal.str "execute_code"),
         ("parameters", JVal.obj
            [("filename", JVal.str (st.files_created.getLastD ⟨"", "", "", "", 0⟩).filename),
             ("goal", JVal.str "test the solution")]),
         ("reasoning", JVal.str "Fallback: Testing the generated solution")] := by
  unfold getFallbackDecision
  rw [if_neg (by simp [h1]), if_pos ⟨h2, h3⟩]

/-- Claim C8 amended, witness: one `solution.py` artifact, no
executions. -/
theorem fallback_runs_latest_py_witness :
    getFallbackDecision stPy
      = [("action", JVal.str "use_tool"), ("tool", JVal.str "execute_code"),
         ("parameters", JVal.obj
            [("filename", JVal.str "solution.py"),
             ("goal", JVal.str "test the solution")]),
         ("reasoning", JVal.str "Fallback: Testing the generated solution")] :=
  fallback_runs_latest_py stPy (by decide) rfl (by decide)

theorem length_updateLastTC (l : List ToolCall) (r : ResultEnv) :
    (updateLastTC l r).length = l.length := by
  induction l with
  | nil => rfl
  | cons c rest ih =>
    cases rest with
    | nil => rfl
    | cons c' rest' => simpa [updateLastTC] using ih

theorem budget_add_issue (st : AgentState) (issue : String) :
    (st.add_issue issue).remaining_calls = st.remaining_calls
    ∧ (st.add_issue issue).tool_calls = st.tool_calls
    ∧ (st.add_issue issue).max_tool_calls = st.max_tool_calls := by
  unfold AgentState.add_issue
  split <;> exact ⟨rfl, rfl, rfl⟩

theorem budget_add_execution_result (st : AgentState) (fn : String) (ec : Int)
    (so se : String) (tr : TestResults) :
    (st.add_execution_result fn ec so se tr).remaining_calls = st.remaining_calls
    ∧ (st.add_execution_result fn ec so se tr).tool_calls = st.tool_calls
    ∧ (st.add_execution_result fn ec so se tr).max_tool_calls = st.max_tool_calls := by
  by_cases hq : st.best_quality_score < calculate_quality_score ec so se tr <;>
    simp [AgentState.add_execution_result, hq]

theorem budget_processToolResult (st : AgentState) (tool : String) (r : ResultEnv)
    (params : JDict) :
    (processToolResult st tool r params).remaining_calls = st.remaining_calls
    ∧ (processToolResult st tool r params).tool_calls = st.tool_calls
    ∧ (processToolResult st tool r params).max_tool_calls = st.max_tool_calls := by
  unfold processToolResult processThink AgentState.add_thinking AgentState.add_file
  split_ifs <;>
    first
      | exact ⟨rfl, rfl, rfl⟩
      | exact budget_add_execution_result _ _ _ _ _ _

theorem budget_afterToolExec (st : AgentState) (tool : String) (r : ResultEnv)
    (params : JDict) :
    (afterToolExec st tool r params).remaining_calls = st.remaining_calls
    ∧ (afterToolExec st tool r params).tool_calls.length = st.tool_calls.length
    ∧ (afterToolExec st tool r params).max_tool_calls = st.max_tool_calls := by
  unfold afterToolExec
  split_ifs
  · obtain ⟨hr, ht, hm⟩ := budget_processToolResult (st.update_last_tool_call r) tool r params
    refine ⟨hr, ?_, hm⟩
    rw [ht]
    exact length_updateLastTC st.tool_calls r
  · obtain ⟨hr, ht, hm⟩ := budget_add_issue (st.update_last_tool_call r)
      (tool ++ " failed: " ++ r.error.getD "Unknown error")
    refine ⟨hr, ?_, hm⟩
    rw [ht]
    exact length_updateLastTC st.tool_calls r

theorem budget_updateAgentAssessment (st : AgentState) :
    (updateAgentAssessment st).remaining_calls = st.remaining_calls
    ∧ (updateAgentAssessment st).tool_calls = st.tool_calls
    ∧ (updateAgentAssessment st).max_tool_calls = st.max_tool_calls := by
  unfold updateAgentAssessment autoSatisfy AgentState.update_satisfaction
    AgentState.update_confidence AgentState.mark_satisfied
  split_ifs <;> exact ⟨rfl, rfl, rfl⟩

theorem budget_cycleDispatch (st : AgentState) (tool : String) (params : JDict)
    (reasoning : String) (tex : ToolExec) :
    (cycleDispatch st tool params reasoning tex).remaining_calls = st.remaining_calls - 1
    ∧ (cycleDispatch st tool params reasoning tex).tool_calls.length
        = st.tool_calls.length + 1
    ∧ (cycleDispatch st tool params reasoning tex).max_tool_calls = st.max_tool_calls := by
  cases tex with
  | ok r =>
    unfold cycleDispatch
    obtain ⟨hr1, ht1, hm1⟩ := budget_updateAgentAssessment
      (afterToolExec (st.add_tool_call tool params reasoning) tool r params)
    obtain ⟨hr2, ht2, hm2⟩ := budget_afterToolExec
      (st.add_tool_call tool params reasoning) tool r params
    refine ⟨?_, ?_, ?_⟩
    · rw [hr1, hr2]; rfl
    · rw [ht1, ht2]; simp [AgentState.add_tool_call]
    · rw [hm1, hm2]; rfl
  | raised e =>
    unfold cycleDispatch
    obtain ⟨hr1, ht1, hm1⟩ := budget_updateAgentAssessment
      (((st.add_tool_call tool params reasoning).update_last_tool_call (errEnv e)).add_issue
        (tool ++ " execution error: " ++ e))
    obtain ⟨hr2, ht2, hm2⟩ := budget_add_issue
      ((st.add_tool_call tool params reasoning).update_last_tool_call (errEnv e))
      (tool ++ " execution error: " ++ e)
    refine ⟨?_, ?_, ?_⟩
    · rw [hr1, hr2]; rfl
    · rw [ht1, ht2]
      show (updateLastTC (st.add_tool_call tool params reasoning).tool_calls (errEnv e)).length
        = st.tool_calls.length + 1
      rw [length_updateLastTC]
      simp [AgentState.add_tool_call]
    · rw [hm1, hm2]; rfl

theorem runLoop_budget_inv (ins : List CycleInput) : ∀ st : AgentState,
    st.remaining_calls = (st.max_tool_calls : Int) - st.tool_calls.length →
    0 ≤ st.remaining_calls →
    ((runLoop ins st).1.remaining_calls
        = ((runLoop ins st).1.max_tool_calls : Int) - (runLoop ins st).1.tool_calls.length)
    ∧ 0 ≤ (runLoop ins st).1.remaining_calls
    ∧ (runLoop ins st).1.max_tool_calls = st.max_tool_calls := by
  induction ins with
  | nil => exact fun st h1 h2 => ⟨h1, h2, rfl⟩
  | cons i rest ih =>
    intro st h1 h2
    unfold runLoop
    split_ifs with hg
    · cases i with
      | oracleFail e => exact ⟨h1, h2, rfl⟩
      | act d tex =>
        cases d with
        | stop reason => exact ⟨h1, h2, rfl⟩
        | useTool tool params reasoning =>
          obtain ⟨hr, ht, hm⟩ := budget_cycleDispatch st tool params reasoning tex
          have := ih (cycleDispatch st tool params reasoning tex)
            (by rw [hr, ht, hm, h1]; push_cast; ring)
            (by rw [hr]; omega)
          rw [hm] at this
          exact this
    · exact ⟨h1, h2, rfl⟩

theorem runLoop_remaining_le (ins : List CycleInput) : ∀ st : AgentState,
    (runLoop ins st).1.remaining_calls ≤ st.remaining_calls := by
  induction ins with
  | nil => exact fun st => le_refl _
  | cons i rest ih =>
    intro st
    unfold runLoop
    split_ifs with hg
    · cases i with
      | oracleFail e => exact le_refl _
      | act d tex =>
        cases d with
        | stop reason => exact le_refl _
        | useTool tool params reasoning =>
          refine le_trans (ih (cycleDispatch st tool params reasoning tex)) ?_
          rw [(budget_cycleDispatch st tool params reasoning tex).1]
          omega
    · exact le_refl _

theorem runLoop_stops_at_zero (ins : List CycleInput) (st : AgentState)
    (h : st.remaining_calls = 0) : runLoop ins st = (st, none) := by
  cases ins with
  | nil => rfl
  | cons i rest =>
    unfold runLoop
    rw [if_neg]
    intro hg
    rw [h] at hg
    exact absurd hg.1 (by norm_num)

/-- Claim C1: in every session (any inputs `ins`, then any continuation
`ins'`), the Ledger's remaining budget equals the configured maximum minus
the number of recorded invocations, never goes negative, is non-increasing
as the session continues, and once it reaches zero the loop performs no
further step at all — in particular it dispatches no capability — even
when the agent is not satisfied. -/
theorem ledger_budget_invariant (p : String) (m : Nat) (ins ins' : List CycleInput) :
    ((runLoop ins (AgentState.init p m)).1.remaining_calls
        = (m : Int) - (runLoop ins (AgentState.init p m)).1.tool_calls.length)
    ∧ 0 ≤ (runLoop ins (AgentState.init p m)).1.remaining_calls
    ∧ (runLoop ins' ((runLoop ins (AgentState.init p m)).1)).1.remaining_calls
        ≤ (runLoop ins (AgentState.init p m)).1.remaining_calls
    ∧ ((runLoop ins (AgentState.init p m)).1.remaining_calls = 0 →
        runLoop ins' ((runLoop ins (AgentState.init p m)).1)
          = ((runLoop ins (AgentState.init p m)).1, none)) := by
  obtain ⟨h1, h2, h3⟩ := runLoop_budget_inv ins (AgentState.init p m) (by simp [AgentState.init])
    (by simp [AgentState.init])
  refine ⟨?_, h2, runLoop_remaining_le ins' _, fun hz => runLoop_stops_at_zero ins' _ hz⟩
  rw [h1, h3]
  simp [AgentState.init]

/-- Claim C1 witness: budget 1; after one dispatched invocation the budget
is exhausted and a further cycle input produces no step. -/
theorem ledger_budget_invariant_witness :
    runLoop [CycleInput.act (Decision.useTool "think" [] "go") (ToolExec.ok okEnv)]
        ((runLoop [CycleInput.act (Decision.useTool "think" [] "go") (ToolExec.ok okEnv)]
          (AgentState.init "p" 1)).1)
      = ((runLoop [CycleInput.act (Decision.useTool "think" [] "go") (ToolExec.ok okEnv)]
          (AgentState.init "p" 1)).1, none) :=
  (ledger_budget_invariant "p" 1
    [CycleInput.act (Decision.useTool "think" [] "go") (ToolExec.ok okEnv)]
    [CycleInput.act (Decision.useTool "think" [] "go") (ToolExec.ok okEnv)]).2.2.2
    (by decide)

/-- Claim C6 counterexample: an oracle `complete` that raises.  The
adapter does not convert the fault into the deterministic fallback
decision — `decide_next_action` propagates the error. -/
theorem oracle_error_not_fallback :
    decide_next_action tools5 (fun _ => Except.error "boom") parse0 prompt0 st0
      ≠ Except.ok (getFallbackDecision st0) := by
  intro h
  have h2 : Except.error "boom" = Except.ok (getFallbackDecision st0) := h
  exact Except.noConfusion h2

/-- Claim C6 amended: an error raised by the reasoning-oracle call
propagates out of the Decision Oracle Adapter unhandled; the Control
Loop's session-level handler is what receives it, aborting the session
with an error report instead of continuing with a fallback decision. -/
theorem oracle_error_propagates (tools : List String) (e : String)
    (parse : String → Except String JVal) (promptOf : AgentState → String)
    (st : AgentState) (rest : List CycleInput)
    (hbudget : 0 < st.remaining_calls) (hsat : st.is_satisfied = false) :
    decide_next_action tools (fun _ => Except.error e) parse promptOf st = Except.error e
    ∧ runLoop (CycleInput.oracleFail e :: rest) st = (st, some e) := by
  refine ⟨rfl, ?_⟩
  unfold runLoop
  rw [if_pos ⟨hbudget, hsat⟩]

/-- Claim C6 amended, witness. -/
theorem oracle_error_propagates_witness :
    decide_next_action tools5 (fun _ => Except.error "boom") parse0 prompt0 st0
        = Except.error "boom"
    ∧ runLoop [CycleInput.oracleFail "boom"] st0 = (st0, some "boom") :=
  oracle_error_propagates tools5 "boom" parse0 prompt0 st0 [] (by decide) rfl

theorem strData_append (a b : String) : (a ++ b).data = a.data ++ b.data := rfl

theorem splitOnChar_ne_nil (sep : Char) (l : List Char) : splitOnChar sep l ≠ [] := by
  induction l with
  | nil => simp [splitOnChar]
  | cons c rest ih =>
    unfold splitOnChar
    split_ifs
    · simp
    · rcases h : splitOnChar sep rest with _ | ⟨a, as⟩
      · exact absurd h ih
      · simp [h]

theorem splitOnChar_append (sep : Char) (a b : List Char) :
    splitOnChar sep (a ++ sep :: b) = splitOnChar sep a ++ splitOnChar sep b := by
  induction a with
  | nil => simp [splitOnChar]
  | cons c rest ih =>
    by_cases hc : c = sep
    · subst hc
      simp [splitOnChar, ih]
    · simp only [List.cons_append, splitOnChar, if_neg hc]
      rcases h : splitOnChar sep rest with _ | ⟨h1, t1⟩
      · exact absurd h (splitOnChar_ne_nil sep rest)
      · simp [ih, h]

theorem pathParts_append (a b : List Char) :
    pathParts (a ++ '/' :: b) = pathParts a ++ pathParts b := by
  unfold pathParts
  rw [splitOnChar_append, List.filter_append]

theorem eq_dropLast_concat_of_getLastQ {l : List Char} {c : Char}
    (h : l.getLast? = some c) : l = l.dropLast ++ [c] := by
  have hne : l ≠ [] := by rintro rfl; simp at h
  rw [List.getLast?_eq_getLast l hne] at h
  injection h with h'
  rw [← h']
  exact (List.dropLast_append_getLast hne).symm

theorem parts_posixJoin2 (a b : String) (hb : headSlash b = false) :
    pathParts (posixJoin2 a b).data = pathParts a.data ++ pathParts b.data := by
  unfold posixJoin2
  split_ifs with h1 h2 h3
  · exact absurd h1 (by simp [hb])
  · simp [h2, pathParts, splitOnChar]
  · have hd : a.data = a.data.dropLast ++ ['/'] :=
      eq_dropLast_concat_of_getLastQ (by simpa [lastSlash] using h3)
    rw [strData_append]
    conv_lhs => rw [hd]
    conv_rhs => rw [hd]
    rw [List.append_assoc, List.singleton_append, pathParts_append]
    have : a.data.dropLast ++ ['/'] = a.data.dropLast ++ '/' :: [] := rfl
    rw [this, pathParts_append]
    simp [pathParts, splitOnChar]
  · rw [strData_append]
    have hjd : (a ++ "/").data = a.data ++ ['/'] := rfl
    rw [hjd, List.append_assoc, List.singleton_append]
    exact pathParts_append a.data b.data

theorem normParts_no_dotdot (cs : List (List Char)) : ∀ stack : List (List Char),
    (∀ c ∈ cs, c ≠ ['.', '.']) → normParts stack cs = stack ++ cs := by
  induction cs with
  | nil => intro stack _; simp [normParts]
  | cons c rest ih =>
    intro stack h
    unfold normParts
    rw [if_neg (h c (by simp)), ih (stack ++ [c]) (fun x hx => h x (by simp [hx]))]
    simp

theorem isPrefixOf_append_self (l r : List (List Char)) :
    l.isPrefixOf (l ++ r) = true := by
  induction l with
  | nil => simp [List.isPrefixOf]
  | cons a t ih => simp [List.isPrefixOf, ih]

theorem all_ne_of_noDotDot {s : String} (h : noDotDot s = true) :
    ∀ c ∈ pathParts s.data, c ≠ ['.', '.'] := by
  intro c hc
  exact of_decide_eq_true ((List.all_eq_true.mp h) c hc)

theorem within_of_decomp (root p : String) (rest : List (List Char))
    (hroot : noDotDot root = true)
    (hp : pathParts p.data = pathParts root.data ++ rest)
    (hrest : ∀ c ∈ rest, c ≠ ['.', '.']) :
    withinRoot root p = true := by
  unfold withinRoot
  rw [hp, normParts_no_dotdot _ _ (all_ne_of_noDotDot hroot),
    normParts_no_dotdot _ _ ?_]
  · simp only [List.nil_append]
    exact isPrefixOf_append_self _ _
  · intro c hc
    rcases List.mem_append.mp hc with hc1 | hc2
    · exact all_ne_of_noDotDot hroot c hc1
    · exact hrest c hc2

theorem rel_of_isRelNoDotDot {s : String} (h : isRelNoDotDot s = true) :
    headSlash s = false := by
  unfold isRelNoDotDot at h
  have := (Bool.and_eq_true _ _).mp h
  simpa using this.1

theorem all_ne_of_isRelNoDotDot {s : String} (h : isRelNoDotDot s = true) :
    ∀ c ∈ pathParts s.data, c ≠ ['.', '.'] := by
  unfold isRelNoDotDot at h
  have hall := (Bool.and_eq_true _ _).mp h
  intro c hc
  exact of_decide_eq_true ((List.all_eq_true.mp hall.2) c hc)

theorem joinWithin (ws dir fn : String) (hws : noDotDot ws = true)
    (hdir : isRelNoDotDot dir = true) (hfn : isRelNoDotDot fn = true) :
    withinRoot ws (if dir ≠ "" then posixJoin2 (posixJoin2 ws dir) fn
      else posixJoin2 ws fn) = true := by
  split_ifs with hd
  · refine within_of_decomp ws _ (pathParts dir.data ++ pathParts fn.data) hws ?_ ?_
    · rw [parts_posixJoin2 _ _ (rel_of_isRelNoDotDot hfn),
        parts_posixJoin2 _ _ (rel_of_isRelNoDotDot hdir), List.append_assoc]
    · intro c hc
      rcases List.mem_append.mp hc with h1 | h2
      · exact all_ne_of_isRelNoDotDot hdir c h1
      · exact all_ne_of_isRelNoDotDot hfn c h2
  · exact within_of_decomp ws _ (pathParts fn.data) hws
      (parts_posixJoin2 _ _ (rel_of_isRelNoDotDot hfn))
      (all_ne_of_isRelNoDotDot hfn)

/-- Claim C5 counterexample: the capability paths are built by plain path
joins with no sanitisation, so a filename with parent-directory components
resolves outside the workspace root (read capability at `../secret.txt`;
run capability at `../../etc/passwd` under the default `solutions`
directory). -/
theorem workspace_escape_counterexample :
    withinRoot "workspace" (readFilePath "workspace" "" "../secret.txt") = false
    ∧ withinRoot "workspace"
        (execScriptPath "workspace" "solutions" "../../etc/passwd") = false :=
  ⟨by decide, by decide⟩

/-- Claim C5 amended: the read, write and run capabilities resolve their
target path relative to the workspace root, and that path stays inside
the root whenever the supplied directory and filename are relative and
free of parent-directory components — nothing in the code prevents
escaping otherwise. -/
theorem workspace_paths_resolve_within (ws dir fn : String)
    (hws : noDotDot ws = true) (hdir : isRelNoDotDot dir = true)
    (hfn : isRelNoDotDot fn = true) :
    withinRoot ws (readFilePath ws dir fn) = true
    ∧ withinRoot ws (writeFilePath ws dir fn) = true
    ∧ withinRoot ws (execScriptPath ws dir fn) = true :=
  ⟨joinWithin ws dir fn hws hdir hfn, joinWithin ws dir fn hws hdir hfn,
   joinWithin ws dir fn hws hdir hfn⟩

/-- Claim C5 amended, witness. -/
theorem workspace_paths_resolve_within_witness :
    withinRoot "workspace" (readFilePath "workspace" "solutions" "main.py") = true
    ∧ withinRoot "workspace" (writeFilePath "workspace" "solutions" "main.py") = true
    ∧ withinRoot "workspace" (execScriptPath "workspace" "solutions" "main.py") = true :=
  workspace_paths_resolve_within "workspace" "solutions" "main.py"
    (by decide) (by decide) (by decide)
